import Mathlib

/-!
Verification of the CloudWatch error-analysis cascade
(`idp_common/agents/error_analyzer/tools/cloudwatch_tool.py`).

The embedding models the pure decision logic of `cloudwatch_document_logs`
and its helpers.  Remote stores are abstracted as oracles:

* `dynamodb_record` is abstracted by a `DynamoResponse` value;
* `extract_lambda_request_ids` (X-Ray) by an association list, which records
  the worker to request-id map in trace discovery order (a Python dict keeps
  insertion order, so keys are pairwise distinct);
* `_search_cloudwatch_logs` by a function `Query → List String` returning the
  filtered events (their messages) of one `filter_log_events` call; the time
  window and event caps are fixed per search, so they are absorbed into the
  oracle.  Every oracle call the controller makes is recorded in a trace.

Instants are modelled as rationals (seconds); `timedelta` arithmetic is exact
over ℚ (the sub-microsecond float rounding of `timedelta.__mul__` is below the
granularity of any property stated here).

String helpers (`strContains`, `strStartsWith`, …) mirror the semantics of
the Python `in`, `startswith`, `strip`, `replace` and `split` operations on
the character-list representation of strings.
-/

namespace ErrorAnalyzer

/-- Model of Python `needle.startswith`-style matching on char lists:
`startsWithChars needle hay` is true when `needle` is a leading run of `hay`. -/
def startsWithChars : List Char → List Char → Bool
  | [], _ => true
  | _ :: _, [] => false
  | n :: ns, h :: hs => n == h && startsWithChars ns hs

/-- Model of Python `needle in hay` (substring containment) on char lists. -/
def containsChars (needle : List Char) : List Char → Bool
  | [] => needle.isEmpty
  | h :: hs => startsWithChars needle (h :: hs) || containsChars needle hs

/-- Python `needle in hay` for strings. -/
def strContains (hay needle : String) : Bool :=
  containsChars needle.data hay.data

/-- Python `s.startswith(pre)`. -/
def strStartsWith (s pre : String) : Bool :=
  startsWithChars pre.data s.data

/-- Python `s.strip()` (whitespace at both ends removed). -/
def strTrim (s : String) : String :=
  ⟨((s.data.dropWhile Char.isWhitespace).reverse.dropWhile Char.isWhitespace).reverse⟩

/-- Python `s.upper()` for ASCII content. -/
def strUpper (s : String) : String :=
  ⟨s.data.map Char.toUpper⟩

/-- Replace every occurrence of a (non-empty) pattern, as Python
`s.replace(pat, rep)`.  Structural recursion on a fuel argument that starts at
the input length; every step consumes at least one character, so the fuel
never runs out before the input does.  An empty pattern leaves the string
unchanged (the source never passes one). -/
def replaceCharsAux (pat rep : List Char) : Nat → List Char → List Char
  | 0, l => l
  | _ + 1, [] => []
  | fuel + 1, c :: cs =>
    if startsWithChars pat (c :: cs) ∧ pat ≠ [] then
      rep ++ replaceCharsAux pat rep fuel ((c :: cs).drop pat.length)
    else
      c :: replaceCharsAux pat rep fuel cs

/-- Python `s.replace(pat, rep)`. -/
def pyReplace (s pat rep : String) : String :=
  ⟨replaceCharsAux pat.data rep.data s.data.length s.data⟩

/-- Python `s.split(sep)` for a one-character separator, accumulator form. -/
def splitOnCharAux (sep : Char) : List Char → List Char → List (List Char)
  | [], acc => [acc.reverse]
  | c :: cs, acc =>
    if c == sep then acc.reverse :: splitOnCharAux sep cs []
    else splitOnCharAux sep cs (c :: acc)

/-- Python `s.split(sep)[-1]` for a one-character separator
(`split` always returns a non-empty list, so the default is never used). -/
def lastSegment (sep : Char) (s : String) : String :=
  ⟨(splitOnCharAux sep s.data []).getLastD []⟩

/-- The recognized high-noise error-marker patterns: the list literal that appears
both in `_search_cloudwatch_logs` (search limit) and `_should_exclude_log_event`
(informational/lifecycle filtering) in the source. -/
def errorMarkerPatterns : List String :=
  ["[ERROR]", "[WARN]", "ERROR:", "WARN:", "Exception", "Failed"]

/-- Lambda system-log line markers skipped under an error-marker pattern
(`_should_exclude_log_event`). -/
def lambdaLifecycleMarkers : List String :=
  ["INIT_START", "START", "END", "REPORT"]

/-- The `EXCLUDE_CONTENT` denylist of `_should_exclude_log_event`. -/
def EXCLUDE_CONTENT : List String :=
  ["Config:", "\"sample_json\"", "Processing event:", "Initialized",
   "Starting", "Debug:", "Trace:"]

/-- Tail of `_should_exclude_log_event`: the denylist test and the
1000-character cutoff, applied under every filter pattern. -/
def should_exclude_rest (message : String) : Bool :=
  if EXCLUDE_CONTENT.any (fun e => strContains message e) then true
  else if 1000 < message.length then true
  else false

/-- `_should_exclude_log_event(message, filter_pattern)`: drop `[INFO]`-prefixed
and Lambda lifecycle lines under a recognized error-marker pattern, then under
any pattern drop denylisted content and messages over 1000 characters. -/
def should_exclude_log_event (message : String) (filterPattern : String) : Bool :=
  if filterPattern ∈ errorMarkerPatterns then
    if strStartsWith (strTrim message) "[INFO]" then true
    else if lambdaLifecycleMarkers.any (fun p => strStartsWith (strTrim message) p) then true
    else should_exclude_rest message
  else should_exclude_rest message

/-- The default value of the `filter_pattern` argument of
`cloudwatch_document_logs`. -/
def defaultFilterPattern : String := "ERROR"

/-- The raw `filter_log_events` limit computed in `_search_cloudwatch_logs`:
5 × `max_events` for recognized error-marker patterns, `max_events` otherwise. -/
def search_limit (filterPattern : String) (maxEvents : Nat) : Nat :=
  if filterPattern ∈ errorMarkerPatterns then maxEvents * 5 else maxEvents

/-- The buffering step of `cloudwatch_document_logs` (lines 136–143): when both
bounds are known, pad them by `min(2 minutes, duration × 0.1)`; otherwise pass
the bounds through unchanged.  Instants are in seconds. -/
def compute_buffered_bounds (s e : Option ℚ) : Option ℚ × Option ℚ :=
  match s, e with
  | some st, some en =>
    let duration := en - st
    let buffer := min (2 * 60 : ℚ) (duration * (1 / 10))
    (some (st - buffer), some (en + buffer))
  | _, _ => (s, e)

/-- The window selection of `_search_cloudwatch_logs` (lines 716–721): use the
provided bounds when both are present, else `hours_back` back from now. -/
def search_window (s e : Option ℚ) (hoursBack : ℚ) (now : ℚ) : ℚ × ℚ :=
  match s, e with
  | some st, some en => (st, en)
  | _, _ => (now - hoursBack * 3600, now)

/-- The composed window used by the document search: buffered bounds fed into
the window selection of `_search_cloudwatch_logs`. -/
def document_search_window (s e : Option ℚ) (hoursBack : ℚ) (now : ℚ) : ℚ × ℚ :=
  let (s', e') := compute_buffered_bounds s e
  search_window s' e' hoursBack now

/-- Lookup in a Python dict modelled as an association list (keys are pairwise
distinct for genuine dicts). -/
def dictGet (m : List (String × String)) (k : String) : Option String :=
  (m.find? (fun p => p.1 == k)).map Prod.snd

/-- Lines 172–183: for a `FAILED` document with a non-empty trace map, the last
worker in discovery order is presumed to be the failed one. -/
def primary_failed_lambda_function (status : Option String)
    (m : List (String × String)) : Option String :=
  if status = some "FAILED" ∧ m ≠ [] then (m.map Prod.fst).getLast? else none

/-- Line 180: the list of presumed-failed workers (the primary one or nothing). -/
def failed_lambda_functions (status : Option String)
    (m : List (String × String)) : List String :=
  (primary_failed_lambda_function status m).toList

/-- Lines 186–209: the priority-1 candidate request ids.  First the primary
failed function's request id (guarded by Python truthiness of the name), then
the loop over `failed_lambda_functions` adding ids not already present. -/
def failed_lambda_request_ids (status : Option String)
    (m : List (String × String)) : List String :=
  let step1 : List String :=
    match primary_failed_lambda_function status m with
    | some p =>
      if p ≠ "" then
        match dictGet m p with
        | some r => [r]
        | none => []
      else []
    | none => []
  (failed_lambda_functions status m).foldl
    (fun acc f =>
      match dictGet m f with
      | some r => if r ∈ acc then acc else acc ++ [r]
      | none => acc)
    step1

/-- Lines 211–216: all remaining request ids in discovery order. -/
def other_lambda_request_ids (m : List (String × String))
    (failedIds : List String) : List String :=
  (m.map Prod.snd).filter (fun r => !failedIds.contains r)

/-- Lines 218–225: the Step Functions execution pattern, populated only when the
execution ARN is truthy and no failed-Lambda request ids were collected. -/
def step_function_execution_patterns (arn : Option String)
    (failedIds : List String) : List String :=
  match arn with
  | some a => if a ≠ "" ∧ failedIds = [] then [lastSegment ':' a] else []
  | none => []

/-- The five search stages of `cloudwatch_document_logs`, labelled by the
`search_type` strings they produce in result entries. -/
inductive Tier where
  | failedReq
  | otherReq
  | docSpecific
  | broad
  | sfExec
deriving DecidableEq, Repr

/-- The `search_type` dict value emitted for each stage. -/
def resultLabel : Tier → String
  | .failedReq => "failed_lambda_request_id"
  | .otherReq => "other_lambda_request_id"
  | .docSpecific => "document_specific_error_search"
  | .broad => "broad_error_search_fallback"
  | .sfExec => "step_function_execution_fallback"

/-- The arguments of one `_search_cloudwatch_logs` call that vary during a
search (log group, filter pattern, optional request id). -/
structure Query where
  logGroup : String
  filterPattern : String
  requestId : Option String
deriving DecidableEq, Repr

/-- One entry of the `all_results` list (the fields of the dict literals at the
five append sites; `lambdaFunctionName` and `warning` are only present for the
stages whose dicts carry those keys). -/
structure ResultEntry where
  logGroup : String
  searchType : String
  lambdaFunctionName : Option String
  patternUsed : String
  eventsFound : Nat
  events : List String
deriving DecidableEq, Repr

/-- Outcome of one stage: the `_search_cloudwatch_logs` calls it made in order,
the result entries it appended, and the events it added to `total_events`. -/
structure TierRun where
  trace : List (Tier × Query)
  results : List ResultEntry
  events : Nat

/-- Lines 244–251 and 300–307: recover a Lambda function name from a request
id (`next(..., "Unknown")` over the trace map). -/
def lookupFnName (m : List (String × String)) (rid : String) : String :=
  ((m.find? (fun p => p.2 == rid)).map Prod.fst).getD "Unknown"

/-- An inner `for log_group in groups` loop that queries every group with a
fixed pattern and optional request id, with no early exit (used by the
failed-id, other-id and Step Functions stages). -/
def groupLoop (ev : Query → List String) (t : Tier) (pat : String)
    (rid : Option String) (patUsed : String) (fnName : Option String)
    (groups : List String) : TierRun where
  trace := groups.map (fun g => (t, ⟨g, pat, rid⟩))
  results := groups.filterMap (fun g =>
    let evs := ev ⟨g, pat, rid⟩
    if evs.length > 0 then
      some ⟨g, resultLabel t, fnName, patUsed, evs.length, evs⟩
    else none)
  events := (groups.map (fun g => (ev ⟨g, pat, rid⟩).length)).sum

/-- Lines 240–292 (and 296–342 for the other-id stage): iterate candidates;
after each candidate's group loop, stop if `total_events > 0`. -/
def tierCandidates (ev : Query → List String) (t : Tier) (fp : String)
    (m : List (String × String)) (groups : List String) :
    List String → TierRun
  | [] => ⟨[], [], 0⟩
  | rid :: rest =>
    let r := groupLoop ev t fp (some rid) rid (some (lookupFnName m rid)) groups
    if 0 < r.events then r
    else
      let r' := tierCandidates ev t fp m groups rest
      ⟨r.trace ++ r'.trace, r.results ++ r'.results, r'.events⟩

/-- Lines 374–382: the second filtering pass of the document-specific stage,
keeping only messages whose upper-cased form contains an error term. -/
def containsErrorTerm (msg : String) : Bool :=
  ["ERROR", "EXCEPTION", "FAILED", "TIMEOUT"].any
    (fun t => strContains (strUpper msg) t)

/-- Lines 352–404: the document-specific stage over the first three groups.
A group whose raw result is non-empty is re-filtered for error terms; only a
non-empty re-filtered list is appended and stops the stage. -/
def docTier (ev : Query → List String) (docIdent : String) :
    List String → TierRun
  | [] => ⟨[], [], 0⟩
  | g :: rest =>
    let q : Query := ⟨g, docIdent, none⟩
    let raw := ev q
    if raw.length > 0 then
      let errs := raw.filter containsErrorTerm
      if errs.length > 0 then
        ⟨[(.docSpecific, q)],
         [⟨g, resultLabel .docSpecific, none, docIdent, errs.length, errs⟩],
         errs.length⟩
      else
        let r := docTier ev docIdent rest
        ⟨(.docSpecific, q) :: r.trace, r.results, r.events⟩
    else
      let r := docTier ev docIdent rest
      ⟨(.docSpecific, q) :: r.trace, r.results, r.events⟩

/-- Lines 407–439: the broad fallback stage over the first two groups, stopping
at the first group with events. -/
def broadTier (ev : Query → List String) (fp : String) :
    List String → TierRun
  | [] => ⟨[], [], 0⟩
  | g :: rest =>
    let q : Query := ⟨g, fp, none⟩
    let evs := ev q
    if evs.length > 0 then
      ⟨[(.broad, q)],
       [⟨g, resultLabel .broad, none, fp, evs.length, evs⟩],
       evs.length⟩
    else
      let r := broadTier ev fp rest
      ⟨(.broad, q) :: r.trace, r.results, r.events⟩

/-- Lines 441–474: the Step Functions execution stage; each pattern queries all
groups, then the loop stops when the running `total_events` (incoming total
plus events found here) is positive. -/
def sfTier (ev : Query → List String) (groups : List String) :
    List String → Nat → TierRun
  | [], _ => ⟨[], [], 0⟩
  | p :: rest, tot =>
    let r := groupLoop ev .sfExec p none p none groups
    if 0 < tot + r.events then r
    else
      let r' := sfTier ev groups rest (tot + r.events)
      ⟨r.trace ++ r'.trace, r.results ++ r'.results, r.events + r'.events⟩

/-- Lines 240–292: the failed-Lambda request id stage. -/
def t1Run (ev : Query → List String) (fp : String)
    (m : List (String × String)) (groups failedIds : List String) : TierRun :=
  tierCandidates ev .failedReq fp m groups failedIds

/-- Lines 295–342: the other-Lambda request id stage, run only when nothing
was found yet and other ids exist, over the first three other ids. -/
def t2Run (ev : Query → List String) (fp : String)
    (m : List (String × String)) (groups failedIds otherIds : List String) :
    TierRun :=
  if (t1Run ev fp m groups failedIds).events = 0 ∧ otherIds ≠ [] then
    tierCandidates ev .otherReq fp m groups (otherIds.take 3)
  else ⟨[], [], 0⟩

/-- The running `total_events` after the two request-id stages. -/
def tot2Of (ev : Query → List String) (fp : String)
    (m : List (String × String)) (groups failedIds otherIds : List String) :
    Nat :=
  (t1Run ev fp m groups failedIds).events
    + (t2Run ev fp m groups failedIds otherIds).events

/-- Line 352: `document_id.replace(".pdf", "").replace(".", "-")`. -/
def docIdentOf (documentId : String) : String :=
  pyReplace (pyReplace documentId ".pdf" "") "." "-"

/-- The document-identifier stage over the first three groups. -/
def t3Run (ev : Query → List String) (documentId : String)
    (groups : List String) : TierRun :=
  docTier ev (docIdentOf documentId) (groups.take 3)

/-- The broad fallback stage over the first two groups, run only when the
document-identifier stage found nothing. -/
def t4Run (ev : Query → List String) (documentId fp : String)
    (groups : List String) : TierRun :=
  if (t3Run ev documentId groups).events = 0 then
    broadTier ev fp (groups.take 2)
  else ⟨[], [], 0⟩

/-- The Step Functions pattern stage, with the running total of the two
stages before it as incoming `total_events`. -/
def t5Run (ev : Query → List String) (documentId fp : String)
    (groups sfPatterns : List String) : TierRun :=
  sfTier ev groups sfPatterns
    ((t3Run ev documentId groups).events
      + (t4Run ev documentId fp groups).events)

/-- Lines 234–474: the full prioritized search.  Stage order as in the source:
failed-id candidates; other-id candidates when nothing found; then — only
when a Step Functions pattern exists and still nothing was found — the
document-identifier stage, the broad fallback when the former found nothing,
and finally (unconditionally within that block) the Step Functions pattern
stage. -/
def runCascade (ev : Query → List String) (documentId fp : String)
    (groups : List String) (m : List (String × String))
    (failedIds otherIds sfPatterns : List String) : TierRun :=
  if tot2Of ev fp m groups failedIds otherIds = 0 ∧ sfPatterns ≠ [] then
    ⟨(t1Run ev fp m groups failedIds).trace
       ++ ((t2Run ev fp m groups failedIds otherIds).trace
         ++ ((t3Run ev documentId groups).trace
           ++ ((t4Run ev documentId fp groups).trace
             ++ (t5Run ev documentId fp groups sfPatterns).trace))),
     (t1Run ev fp m groups failedIds).results
       ++ ((t2Run ev fp m groups failedIds otherIds).results
         ++ ((t3Run ev documentId groups).results
           ++ ((t4Run ev documentId fp groups).results
             ++ (t5Run ev documentId fp groups sfPatterns).results))),
     tot2Of ev fp m groups failedIds otherIds
       + ((t3Run ev documentId groups).events
         + ((t4Run ev documentId fp groups).events
           + (t5Run ev documentId fp groups sfPatterns).events))⟩
  else
    ⟨(t1Run ev fp m groups failedIds).trace
       ++ (t2Run ev fp m groups failedIds otherIds).trace,
     (t1Run ev fp m groups failedIds).results
       ++ (t2Run ev fp m groups failedIds otherIds).results,
     tot2Of ev fp m groups failedIds otherIds⟩

/-- The fields of the tracking-table record that `cloudwatch_document_logs`
reads (timestamps already parsed to instants in seconds; `xrayTraceId` is the
coalesced `XRayTraceId or TraceId`). -/
structure DocumentRecord where
  initialEventTime : Option ℚ
  completionTime : Option ℚ
  xrayTraceId : Option String
  status : Option String
  executionArn : Option String

/-- The outcome of the `dynamodb_record(document_id)` call. -/
structure DynamoResponse where
  documentFound : Bool
  reason : Option String
  trackingAvailable : Bool
  document : DocumentRecord

/-- The per-search strategy dict built at lines 228–232. -/
structure Strategy where
  failedLambdaRequestIds : List String
  otherLambdaRequestIds : List String
  stepFunctionExecutionPatterns : List String
deriving DecidableEq, Repr

/-- One remote call made by the tool: the CloudFormation stack lookup inside
`_get_log_group_prefix`, the log-group discovery inside
`_get_cloudwatch_log_groups`, or one `_search_cloudwatch_logs` query (labelled
by the stage issuing it). -/
inductive RemoteCall where
  | describeStacks (stackName : String)
  | describeLogGroups (groupNamePfx : String)
  | filterLogEvents (t : Tier) (q : Query)
deriving DecidableEq, Repr

/-- The dict returned by `cloudwatch_document_logs`, one constructor per
`return` site (the generic exception handler is not modelled: the embedded
logic is total). -/
inductive ToolOutput where
  | notFound (analysisType documentId error : String) (eventsFound : Nat)
      (trackingAvailable : Bool)
  | logPfxError (error : String) (eventsFound : Nat)
  | noLogGroups (documentId logPfx : String) (eventsFound : Nat)
      (message : String)
  | success (documentId : String) (documentStatus : Option String)
      (stepFunctionExecutionArn : Option String) (xrayTraceId : Option String)
      (logSearchStrategy : Strategy) (failedLambdaFunctions : List String)
      (primaryFailedLambdaFunction : Option String)
      (lambdaFunctionToRequestIdMap : List (String × String))
      (processingTimeWindow : Option ℚ × Option ℚ)
      (totalEventsFound : Nat) (logGroupsSearched : Nat)
      (logGroupsWithEvents : Nat) (results : List ResultEntry)

/-- The key sets of the four dict literals returned by
`cloudwatch_document_logs`, in construction order. -/
def ToolOutput.keys : ToolOutput → List String
  | .notFound .. =>
    ["analysis_type", "document_id", "error", "events_found",
     "tracking_available"]
  | .logPfxError .. => ["error", "events_found"]
  | .noLogGroups .. => ["document_id", "log_prefix", "events_found", "message"]
  | .success .. =>
    ["analysis_type", "document_id", "document_status",
     "step_function_execution_arn", "xray_trace_id", "log_search_strategy",
     "extraction_method", "failed_lambda_functions",
     "primary_failed_lambda_function", "lambda_function_to_request_id_map",
     "document_processing_time_window", "total_events_found",
     "log_groups_searched", "log_groups_with_events", "results"]

/-- The decision logic of `cloudwatch_document_logs` with its collaborators as
oracles: `dyn` the tracking-store response, `xrayMap` the X-Ray worker map,
`pfxInfo` the outcome of `_get_log_group_prefix`, `storeGroups` the group
names the log store returns for that prefix, and `ev` the per-query filtered
events.  Returns the report together with the ordered list of remote calls. -/
def cloudwatch_document_logs (ev : Query → List String)
    (dyn : DynamoResponse) (xrayMap : List (String × String))
    (pfxInfo : Except String String) (storeGroups : List String)
    (documentId stackName fp : String) (maxLogGroups : Nat) :
    ToolOutput × List RemoteCall :=
  if dyn.documentFound = false then
    (.notFound "document_not_found" documentId
      (dyn.reason.getD "Document not found in tracking table") 0
      dyn.trackingAvailable,
     [])
  else
    match pfxInfo with
    | .error e =>
      (.logPfxError ("Failed to get log prefix: " ++ e) 0,
       [.describeStacks stackName])
    | .ok logPfx =>
      let discovery : List RemoteCall :=
        if logPfx.length < 5 then [] else [.describeLogGroups logPfx]
      let foundGroups : List String :=
        if logPfx.length < 5 then [] else storeGroups
      if foundGroups.length = 0 then
        (.noLogGroups documentId logPfx 0 "No log groups found",
         .describeStacks stackName :: discovery)
      else
        let doc := dyn.document
        let bounds := compute_buffered_bounds doc.initialEventTime
          doc.completionTime
        let m : List (String × String) :=
          match doc.xrayTraceId with
          | some t => if t ≠ "" then xrayMap else []
          | none => []
        let failedIds := failed_lambda_request_ids doc.status m
        let otherIds := other_lambda_request_ids m failedIds
        let sfPatterns := step_function_execution_patterns doc.executionArn
          failedIds
        let groupsToSearch := foundGroups.take maxLogGroups
        let run := runCascade ev documentId fp groupsToSearch m failedIds
          otherIds sfPatterns
        (.success documentId doc.status doc.executionArn doc.xrayTraceId
          ⟨failedIds, otherIds, sfPatterns⟩
          (failed_lambda_functions doc.status m)
          (primary_failed_lambda_function doc.status m)
          m bounds run.events groupsToSearch.length run.results.length
          run.results,
         .describeStacks stackName :: discovery
           ++ run.trace.map (fun e => .filterLogEvents e.1 e.2))

/-- Whether a recorded query "yielded": its filtered events as seen by the
controller — for the document-specific stage the error-term re-filtered list,
for every other stage the events returned by the search itself. -/
def tierHit (ev : Query → List String) (e : Tier × Query) : Bool :=
  match e.1 with
  | .docSpecific => !((ev e.2).filter containsErrorTerm).isEmpty
  | _ => !(ev e.2).isEmpty

/-- Two recorded queries belong to the same candidate: same stage, same filter
pattern, same request id (only the log group may differ). -/
def sameCand (e e' : Tier × Query) : Prop :=
  e.1 = e'.1 ∧ e.2.filterPattern = e'.2.filterPattern ∧
    e.2.requestId = e'.2.requestId

/-- What may follow a yielding query: a query for the same candidate, or a
Step Functions stage query after a document-specific or broad-fallback hit. -/
def cascadeStep (e e' : Tier × Query) : Prop :=
  sameCand e e' ∨
    ((e.1 = Tier.docSpecific ∨ e.1 = Tier.broad) ∧ e'.1 = Tier.sfExec)

/-- A query that yielded may only be followed by `cascadeStep`-related
queries. -/
def hitStep (ev : Query → List String) (e e' : Tier × Query) : Prop :=
  tierHit ev e = true → cascadeStep e e'

/-- Priority of each stage in the order the source executes them. -/
def codeTierPriority : Tier → Nat
  | .failedReq => 0
  | .otherReq => 1
  | .docSpecific => 2
  | .broad => 3
  | .sfExec => 4

/-- Priority of each stage in the order claimed by the specification
(primary-failure, other-worker, execution-reference, case-identifier, broad). -/
def claimedTierPriority : Tier → Nat
  | .failedReq => 1
  | .otherReq => 2
  | .sfExec => 3
  | .docSpecific => 4
  | .broad => 5

/-- A message of 1001 characters (for exercising the length cutoff). -/
def longMsg : String := ⟨List.replicate 1001 'x'⟩

/-- Oracle for a run in which the document-identifier stage finds an error
event and the Step Functions stage also has events. -/
def docThenSfOracle : Query → List String := fun q =>
  if q.filterPattern = "doc" then ["ERROR boom"]
  else if q.filterPattern = "exec1" then ["SF event"]
  else []

/-- Oracle for a run in which the first log group already yields an event for
the failed request id. -/
def firstGroupHitOracle : Query → List String := fun q =>
  if q.logGroup = "g1" ∧ q.requestId = some "r1" then ["ERROR first"] else []

/-- C9: every message longer than 1000 characters is excluded by the event
filter, whatever the filter pattern: each early return of
`_should_exclude_log_event` is `True`, and the final length test fires. -/
theorem long_message_excluded (msg pat : String) (h : 1000 < msg.length) :
    should_exclude_log_event msg pat = true := by
  unfold should_exclude_log_event should_exclude_rest
  repeat' split
  all_goals simp [h]

set_option maxRecDepth 8192

/-- Witness for `long_message_excluded` at the 1001-character message and the
default pattern. -/
theorem long_message_excluded_witness :
    1000 < longMsg.length ∧
      should_exclude_log_event longMsg defaultFilterPattern = true :=
  ⟨by decide, long_message_excluded longMsg defaultFilterPattern (by decide)⟩

/-- C10: the recognized error-marker set is exactly the six listed strings;
the raw search limit is 5 × `max_events` exactly for those patterns, and the
informational/lifecycle exclusion of the event filter fires exactly under
those patterns; the default pattern "ERROR" is not among them, so a clean
informational line survives it and its limit stays at `max_events`. -/
theorem error_marker_set_spec (p : String) (m : Nat) (msg : String)
    (hm : 0 < m)
    (hline : strStartsWith (strTrim msg) "[INFO]" = true ∨
      lambdaLifecycleMarkers.any (fun q => strStartsWith (strTrim msg) q) = true)
    (hclean : EXCLUDE_CONTENT.any (fun e => strContains msg e) = false)
    (hshort : ¬ 1000 < msg.length) :
    errorMarkerPatterns =
        ["[ERROR]", "[WARN]", "ERROR:", "WARN:", "Exception", "Failed"]
      ∧ (search_limit p m = m * 5 ↔ p ∈ errorMarkerPatterns)
      ∧ (should_exclude_log_event msg p = true ↔ p ∈ errorMarkerPatterns)
      ∧ defaultFilterPattern ∉ errorMarkerPatterns
      ∧ search_limit defaultFilterPattern m = m
      ∧ should_exclude_log_event msg defaultFilterPattern = false := by
  have hrest : should_exclude_rest msg = false := by
    unfold should_exclude_rest
    simp [hclean, hshort]
  have hdef : defaultFilterPattern ∉ errorMarkerPatterns := by decide
  have hexcl : ∀ q : String, q ∈ errorMarkerPatterns →
      should_exclude_log_event msg q = true := by
    intro q hq
    unfold should_exclude_log_event
    rcases hline with h1 | h2
    · simp [hq, h1]
    · simp [hq, h2]
  have hkeep : ∀ q : String, q ∉ errorMarkerPatterns →
      should_exclude_log_event msg q = false := by
    intro q hq
    unfold should_exclude_log_event
    simp [hq, hrest]
  refine ⟨rfl, ?_, ?_, hdef, ?_, hkeep _ hdef⟩
  · unfold search_limit
    by_cases hp : p ∈ errorMarkerPatterns
    · simp [hp]
    · simp [hp]
      omega
  · by_cases hp : p ∈ errorMarkerPatterns
    · simp [hexcl p hp, hp]
    · simp [hkeep p hp, hp]
  · unfold search_limit
    simp [hdef]

/-- Witness for `error_marker_set_spec` at pattern "[ERROR]", max 1 and the
informational message "[INFO] x". -/
theorem error_marker_set_spec_witness :
    errorMarkerPatterns =
        ["[ERROR]", "[WARN]", "ERROR:", "WARN:", "Exception", "Failed"]
      ∧ (search_limit "[ERROR]" 1 = 1 * 5 ↔ "[ERROR]" ∈ errorMarkerPatterns)
      ∧ (should_exclude_log_event "[INFO] x" "[ERROR]" = true ↔
          "[ERROR]" ∈ errorMarkerPatterns)
      ∧ defaultFilterPattern ∉ errorMarkerPatterns
      ∧ search_limit defaultFilterPattern 1 = 1
      ∧ should_exclude_log_event "[INFO] x" defaultFilterPattern = false :=
  error_marker_set_spec "[ERROR]" 1 "[INFO] x" (by decide)
    (Or.inl (by decide)) (by decide) (by decide)

/-- C6: with both bounds known the window is the bounds padded by
`min(2 minutes, duration / 10)`; with either bound missing it is
`(now − lookback, now)` with no buffer. -/
theorem window_formula (s e lb now : ℚ) :
    document_search_window (some s) (some e) lb now
      = (s - min (2 * 60) ((e - s) * (1 / 10)),
         e + min (2 * 60) ((e - s) * (1 / 10)))
    ∧ (∀ o : Option ℚ,
        document_search_window none o lb now = (now - lb * 3600, now)
        ∧ document_search_window o none lb now = (now - lb * 3600, now)) := by
  refine ⟨rfl, ?_⟩
  intro o
  cases o <;> exact ⟨rfl, rfl⟩

/-- C7 counterexample: with bounds given in reversed order the buffer is
negative and the resulting window has its end strictly before its start
(start 3600 s, end 0 s gives the window (3960, −360)). -/
theorem window_order_cex :
    (document_search_window (some 3600) (some 0) 24 0).2
      < (document_search_window (some 3600) (some 0) 24 0).1 := by
  unfold document_search_window compute_buffered_bounds search_window
  norm_num [min_def]

/-- C7 amended: the window satisfies end ≥ start whenever the known bounds are
in order (start ≤ end), and whenever a bound is missing provided the lookback
is nonnegative. -/
theorem window_order_amended (s e lb now : ℚ) (hse : s ≤ e) (hlb : 0 ≤ lb) :
    (document_search_window (some s) (some e) lb now).1
      ≤ (document_search_window (some s) (some e) lb now).2
    ∧ ∀ s? e? : Option ℚ, (s? = none ∨ e? = none) →
        (document_search_window s? e? lb now).1
          ≤ (document_search_window s? e? lb now).2 := by
  constructor
  · have hb : 0 ≤ min (2 * 60 : ℚ) ((e - s) * (1 / 10)) := by
      apply le_min <;> nlinarith
    show s - min (2 * 60 : ℚ) ((e - s) * (1 / 10))
      ≤ e + min (2 * 60 : ℚ) ((e - s) * (1 / 10))
    linarith
  · have hnow : now - lb * 3600 ≤ now := by nlinarith
    intro s? e? h
    cases s? with
    | none => cases e? <;> exact hnow
    | some a =>
      cases e? with
      | none => exact hnow
      | some b => simp at h

/-- Witness for `window_order_amended` at start 0, end 1200, lookback 24. -/
theorem window_order_amended_witness :
    (document_search_window (some 0) (some 1200) 24 0).1
      ≤ (document_search_window (some 0) (some 1200) 24 0).2
    ∧ ∀ s? e? : Option ℚ, (s? = none ∨ e? = none) →
        (document_search_window s? e? 24 0).1
          ≤ (document_search_window s? e? 24 0).2 :=
  window_order_amended 0 1200 24 0 (by norm_num) (by norm_num)

/-- C4 counterexample: for a COMPLETED document with one traced worker there
are no failed-Lambda request ids, so the Step Functions pattern is populated
even though an (other-worker) request id exists. -/
theorem sf_tier_population_cex :
    step_function_execution_patterns (some "arn:aws:states:exec-1")
        (failed_lambda_request_ids (some "COMPLETED") [("workerA", "r1")])
      = ["exec-1"]
    ∧ other_lambda_request_ids [("workerA", "r1")]
        (failed_lambda_request_ids (some "COMPLETED") [("workerA", "r1")])
      = ["r1"] := by
  constructor <;> rfl

/-- C4 amended: the execution-reference patterns are populated exactly when
the execution ARN is present and truthy and the primary-failure candidate
list is empty; other-worker request ids play no role. -/
theorem sf_tier_population_iff (arn : Option String)
    (failedIds : List String) :
    step_function_execution_patterns arn failedIds ≠ [] ↔
      ∃ a, arn = some a ∧ a ≠ "" ∧ failedIds = [] := by
  cases arn with
  | none => simp [step_function_execution_patterns]
  | some a =>
    unfold step_function_execution_patterns
    by_cases h : a ≠ "" ∧ failedIds = []
    · simp only [if_pos h]
      simp [h.1, h.2]
    · simp only [if_neg h]
      simp only [ne_eq, not_true_eq_false, false_iff]
      rintro ⟨b, hb, hb2, hb3⟩
      cases hb
      exact h ⟨hb2, hb3⟩

/-- Dict lookup of the key of the last entry returns that entry's value, when
keys are pairwise distinct (the Python dict invariant). -/
theorem dictGet_append_last (l : List (String × String)) (w : String × String)
    (h : ((l ++ [w]).map Prod.fst).Nodup) :
    dictGet (l ++ [w]) w.1 = some w.2 := by
  induction l with
  | nil => simp [dictGet]
  | cons a l' ih =>
    rw [List.cons_append, List.map_cons] at h
    have hsplit := List.nodup_cons.mp h
    have hnot : a.1 ∉ (l' ++ [w]).map Prod.fst := hsplit.1
    have hne : (a.1 == w.1) = false := by
      apply beq_eq_false_iff_ne.mpr
      intro hEq
      apply hnot
      rw [hEq]
      exact List.mem_map.mpr ⟨w, by simp, rfl⟩
    have hrec := ih hsplit.2
    show dictGet ((a :: l') ++ [w]) w.1 = some w.2
    unfold dictGet at hrec ⊢
    rw [List.cons_append, List.find?_cons]
    simp only [hne]
    exact hrec

/-- C5: for a non-empty trace map (written as `l ++ [w]`, so `w` is the worker
discovered last) with distinct worker names, the primary-failure candidate
list is exactly `[w.2]` when the document status is FAILED, and empty for any
other status. -/
theorem primary_tier_sole_candidate (l : List (String × String))
    (w : String × String) (m : List (String × String)) (hm : m = l ++ [w])
    (h2 : (m.map Prod.fst).Nodup) (status : Option String) :
    failed_lambda_request_ids status m
      = if status = some "FAILED" then [w.2] else [] := by
  subst hm
  by_cases hs : status = some "FAILED"
  · have hlast : ((l ++ [w]).map Prod.fst).getLast? = some w.1 := by
      rw [List.map_append]
      simp
    have hget := dictGet_append_last l w h2
    have hprim : primary_failed_lambda_function status (l ++ [w]) = some w.1 := by
      unfold primary_failed_lambda_function
      rw [if_pos ⟨hs, by simp⟩]
      exact hlast
    unfold failed_lambda_request_ids failed_lambda_functions
    rw [hprim, if_pos hs]
    by_cases hw : w.1 = ""
    · rw [hw] at hget
      simp [hw, hget, List.foldl]
    · simp [hw, hget, List.foldl]
  · unfold failed_lambda_request_ids failed_lambda_functions
      primary_failed_lambda_function
    rw [if_neg (by intro hc; exact hs hc.1)]
    simp [hs]

/-- Witness for `primary_tier_sole_candidate`: trace map
`{workerA: req1, workerB: req2}` in discovery order, status FAILED — the sole
candidate is `req2`. -/
theorem primary_tier_sole_candidate_witness :
    failed_lambda_request_ids (some "FAILED")
        [("workerA", "req1"), ("workerB", "req2")] = ["req2"] := by
  have h := primary_tier_sole_candidate [("workerA", "req1")]
    ("workerB", "req2") [("workerA", "req1"), ("workerB", "req2")] rfl
    (by decide) (some "FAILED")
  simpa using h

/-- C8: when the tracking store has no record for the document id, the tool
returns the short-circuit not-found report (carrying the document id, the
reason and zero events) and performs no remote call whatsoever. -/
theorem not_found_short_circuit (ev : Query → List String)
    (reason : Option String) (ta : Bool) (doc : DocumentRecord)
    (xrayMap : List (String × String)) (pfxInfo : Except String String)
    (storeGroups : List String) (documentId stackName fp : String)
    (maxLogGroups : Nat) :
    cloudwatch_document_logs ev ⟨false, reason, ta, doc⟩ xrayMap pfxInfo
        storeGroups documentId stackName fp maxLogGroups
      = (ToolOutput.notFound "document_not_found" documentId
          (reason.getD "Document not found in tracking table") 0 ta,
         []) := rfl

/-- C3 amended: no report ever carries an `incomplete` key — the tool takes no
deadline and none of its four return dicts contains that field. -/
theorem report_no_incomplete_marker (ev : Query → List String)
    (dyn : DynamoResponse) (xrayMap : List (String × String))
    (pfxInfo : Except String String) (storeGroups : List String)
    (documentId stackName fp : String) (maxLogGroups : Nat) :
    "incomplete" ∉ (cloudwatch_document_logs ev dyn xrayMap pfxInfo
        storeGroups documentId stackName fp maxLogGroups).1.keys := by
  have h : ∀ o : ToolOutput, "incomplete" ∉ o.keys := by
    intro o
    cases o <;> simp [ToolOutput.keys]
  exact h _

/-- C3 counterexample: a concrete search that runs to completion (no deadline
is even expressible) produces a report without any `incomplete` marker,
contradicting the claim that such reports carry `incomplete: false`. -/
theorem report_incomplete_marker_cex :
    "incomplete" ∉ (cloudwatch_document_logs (fun _ => [])
        ⟨true, none, true, ⟨none, none, none, none, none⟩⟩ []
        (Except.ok "/ab/cde") ["g1"] "d.pdf" "stk" "ERROR" 20).1.keys := by
  decide

theorem pairwise_of_all {α : Type} {R : α → α → Prop} :
    ∀ l : List α, (∀ a b, R a b) → l.Pairwise R
  | [], _ => List.Pairwise.nil
  | a :: t, h => List.Pairwise.cons (fun b _ => h a b) (pairwise_of_all t h)

theorem pairwise_le_of_const {l : List Nat} (c : Nat) (h : ∀ x ∈ l, x = c) :
    l.Pairwise (fun a b => a ≤ b) := by
  induction l with
  | nil => exact List.Pairwise.nil
  | cons a t ih =>
    refine List.Pairwise.cons ?_ (ih fun x hx => h x (List.mem_cons_of_mem a hx))
    intro b hb
    rw [h a (List.mem_cons_self a t), h b (List.mem_cons_of_mem a hb)]

theorem pairwise_le_append_blocks {l1 l2 : List Nat} (c : Nat)
    (h1 : ∀ x ∈ l1, x ≤ c) (h2 : ∀ x ∈ l2, c ≤ x)
    (p1 : l1.Pairwise (fun a b => a ≤ b))
    (p2 : l2.Pairwise (fun a b => a ≤ b)) :
    (l1 ++ l2).Pairwise (fun a b => a ≤ b) :=
  List.pairwise_append.mpr
    ⟨p1, p2, fun a ha b hb => le_trans (h1 a ha) (h2 b hb)⟩

theorem tierHit_false_of_nil (ev : Query → List String) (e : Tier × Query)
    (h : ev e.2 = []) : tierHit ev e = false := by
  rcases e with ⟨t, q⟩
  cases t <;> simp_all [tierHit]

theorem hitStep_of_sameCand {ev : Query → List String}
    {l : List (Tier × Query)} (h : l.Pairwise sameCand) :
    l.Pairwise (hitStep ev) :=
  h.imp fun hc _ => Or.inl hc

theorem hitStep_of_no_hit (ev : Query → List String) {e e' : Tier × Query}
    (h : tierHit ev e = false) : hitStep ev e e' := by
  intro hh
  rw [h] at hh
  exact Bool.noConfusion hh

theorem mem_groupLoop (ev : Query → List String) (t : Tier) (pat : String)
    (rid : Option String) (pu : String) (fn : Option String)
    (groups : List String) (e : Tier × Query)
    (he : e ∈ (groupLoop ev t pat rid pu fn groups).trace) :
    ∃ g ∈ groups, e = (t, ⟨g, pat, rid⟩) := by
  rcases List.mem_map.mp he with ⟨g, hg, h⟩
  exact ⟨g, hg, h.symm⟩

theorem groupLoop_events_zero (ev : Query → List String) (t : Tier)
    (pat : String) (rid : Option String) (pu : String) (fn : Option String)
    (groups : List String)
    (h : (groupLoop ev t pat rid pu fn groups).events = 0) :
    ∀ e ∈ (groupLoop ev t pat rid pu fn groups).trace, ev e.2 = [] := by
  intro e he
  rcases mem_groupLoop ev t pat rid pu fn groups e he with ⟨g, hg, rfl⟩
  have h' : (groups.map (fun g => (ev ⟨g, pat, rid⟩).length)).sum = 0 := h
  have hz := List.sum_eq_zero_iff.mp h' ((ev ⟨g, pat, rid⟩).length)
    (List.mem_map.mpr ⟨g, hg, rfl⟩)
  exact List.length_eq_zero.mp hz

theorem groupLoop_pairwise (ev : Query → List String) (t : Tier)
    (pat : String) (rid : Option String) (pu : String) (fn : Option String)
    (groups : List String) :
    (groupLoop ev t pat rid pu fn groups).trace.Pairwise sameCand := by
  apply List.pairwise_map.mpr
  exact pairwise_of_all groups (fun a b => ⟨rfl, rfl, rfl⟩)

theorem tierCandidates_tier (ev : Query → List String) (t : Tier)
    (fp : String) (m : List (String × String)) (groups : List String)
    (cands : List String) :
    ∀ e ∈ (tierCandidates ev t fp m groups cands).trace, e.1 = t := by
  induction cands with
  | nil => intro e he; simp [tierCandidates] at he
  | cons rid rest ih =>
    intro e he
    by_cases hpos :
        0 < (groupLoop ev t fp (some rid) rid
          (some (lookupFnName m rid)) groups).events
    · rw [tierCandidates, if_pos hpos] at he
      rcases mem_groupLoop ev t fp (some rid) rid _ groups e he with ⟨g, hg, rfl⟩
      rfl
    · rw [tierCandidates, if_neg hpos] at he
      dsimp only at he
      rcases List.mem_append.mp he with he | he
      · rcases mem_groupLoop ev t fp (some rid) rid _ groups e he with ⟨g, hg, rfl⟩
        rfl
      · exact ih e he

theorem tierCandidates_events_zero (ev : Query → List String) (t : Tier)
    (fp : String) (m : List (String × String)) (groups : List String)
    (cands : List String)
    (h : (tierCandidates ev t fp m groups cands).events = 0) :
    ∀ e ∈ (tierCandidates ev t fp m groups cands).trace, ev e.2 = [] := by
  induction cands with
  | nil => intro e he; simp [tierCandidates] at he
  | cons rid rest ih =>
    by_cases hpos :
        0 < (groupLoop ev t fp (some rid) rid
          (some (lookupFnName m rid)) groups).events
    · rw [tierCandidates, if_pos hpos] at h
      omega
    · have hz : (groupLoop ev t fp (some rid) rid
          (some (lookupFnName m rid)) groups).events = 0 := by omega
      rw [tierCandidates, if_neg hpos] at h ⊢
      dsimp only at h ⊢
      intro e he
      rcases List.mem_append.mp he with he | he
      · exact groupLoop_events_zero ev t fp (some rid) rid _ groups hz e he
      · exact ih h e he

theorem tierCandidates_pairwise (ev : Query → List String) (t : Tier)
    (fp : String) (m : List (String × String)) (groups : List String)
    (cands : List String) :
    (tierCandidates ev t fp m groups cands).trace.Pairwise (hitStep ev) := by
  induction cands with
  | nil => simp [tierCandidates]
  | cons rid rest ih =>
    by_cases hpos :
        0 < (groupLoop ev t fp (some rid) rid
          (some (lookupFnName m rid)) groups).events
    · rw [tierCandidates, if_pos hpos]
      exact hitStep_of_sameCand (groupLoop_pairwise ev t fp (some rid) rid _ groups)
    · have hz : (groupLoop ev t fp (some rid) rid
          (some (lookupFnName m rid)) groups).events = 0 := by omega
      rw [tierCandidates, if_neg hpos]
      dsimp only
      refine List.pairwise_append.mpr
        ⟨hitStep_of_sameCand (groupLoop_pairwise ev t fp (some rid) rid _ groups),
         ih, ?_⟩
      intro a ha b _
      exact hitStep_of_no_hit ev (tierHit_false_of_nil ev a
        (groupLoop_events_zero ev t fp (some rid) rid _ groups hz a ha))

theorem docTier_tier (ev : Query → List String) (d : String)
    (groups : List String) :
    ∀ e ∈ (docTier ev d groups).trace, e.1 = Tier.docSpecific := by
  induction groups with
  | nil => intro e he; simp [docTier] at he
  | cons g rest ih =>
    intro e he
    simp only [docTier] at he
    split at he
    · split at he
      · simp only [List.mem_singleton] at he
        rw [he]
      · dsimp only at he
        rcases List.mem_cons.mp he with he | he
        · rw [he]
        · exact ih e he
    · dsimp only at he
      rcases List.mem_cons.mp he with he | he
      · rw [he]
      · exact ih e he

theorem docTier_no_hit (ev : Query → List String) (d : String)
    (groups : List String) (h : (docTier ev d groups).events = 0) :
    ∀ e ∈ (docTier ev d groups).trace, tierHit ev e = false := by
  induction groups with
  | nil => intro e he; simp [docTier] at he
  | cons g rest ih =>
    by_cases hraw : (ev ⟨g, d, none⟩).length > 0
    · by_cases herr : ((ev ⟨g, d, none⟩).filter containsErrorTerm).length > 0
      · simp only [docTier] at h
        rw [if_pos hraw, if_pos herr] at h
        dsimp only at h
        omega
      · have hnil : (ev ⟨g, d, none⟩).filter containsErrorTerm = [] :=
          List.length_eq_zero.mp (by omega)
        simp only [docTier] at h ⊢
        rw [if_pos hraw, if_neg herr] at h ⊢
        dsimp only at h ⊢
        intro e he
        rcases List.mem_cons.mp he with he | he
        · rw [he]
          simp [tierHit, hnil]
        · exact ih h e he
    · have hnil : ev ⟨g, d, none⟩ = [] := List.length_eq_zero.mp (by omega)
      simp only [docTier] at h ⊢
      rw [if_neg hraw] at h ⊢
      dsimp only at h ⊢
      intro e he
      rcases List.mem_cons.mp he with he | he
      · rw [he]
        exact tierHit_false_of_nil ev _ hnil
      · exact ih h e he

theorem docTier_pairwise (ev : Query → List String) (d : String)
    (groups : List String) :
    (docTier ev d groups).trace.Pairwise (hitStep ev) := by
  induction groups with
  | nil => simp [docTier]
  | cons g rest ih =>
    by_cases hraw : (ev ⟨g, d, none⟩).length > 0
    · by_cases herr : ((ev ⟨g, d, none⟩).filter containsErrorTerm).length > 0
      · simp only [docTier]
        rw [if_pos hraw, if_pos herr]
        simp
      · have hnil : (ev ⟨g, d, none⟩).filter containsErrorTerm = [] :=
          List.length_eq_zero.mp (by omega)
        simp only [docTier]
        rw [if_pos hraw, if_neg herr]
        dsimp only
        refine List.pairwise_cons.mpr ⟨?_, ih⟩
        intro e' _
        apply hitStep_of_no_hit
        simp [tierHit, hnil]
    · have hnil : ev ⟨g, d, none⟩ = [] := List.length_eq_zero.mp (by omega)
      simp only [docTier]
      rw [if_neg hraw]
      dsimp only
      refine List.pairwise_cons.mpr ⟨?_, ih⟩
      intro e' _
      exact hitStep_of_no_hit ev (tierHit_false_of_nil ev _ hnil)

theorem broadTier_tier (ev : Query → List String) (fp : String)
    (groups : List String) :
    ∀ e ∈ (broadTier ev fp groups).trace, e.1 = Tier.broad := by
  induction groups with
  | nil => intro e he; simp [broadTier] at he
  | cons g rest ih =>
    intro e he
    simp only [broadTier] at he
    split at he
    · simp only [List.mem_singleton] at he
      rw [he]
    · dsimp only at he
      rcases List.mem_cons.mp he with he | he
      · rw [he]
      · exact ih e he

theorem broadTier_events_zero (ev : Query → List String) (fp : String)
    (groups : List String) (h : (broadTier ev fp groups).events = 0) :
    ∀ e ∈ (broadTier ev fp groups).trace, ev e.2 = [] := by
  induction groups with
  | nil => intro e he; simp [broadTier] at he
  | cons g rest ih =>
    by_cases hev : (ev ⟨g, fp, none⟩).length > 0
    · simp only [broadTier] at h
      rw [if_pos hev] at h
      dsimp only at h
      omega
    · have hnil : ev ⟨g, fp, none⟩ = [] := List.length_eq_zero.mp (by omega)
      simp only [broadTier] at h ⊢
      rw [if_neg hev] at h ⊢
      dsimp only at h ⊢
      intro e he
      rcases List.mem_cons.mp he with he | he
      · rw [he]
        exact hnil
      · exact ih h e he

theorem broadTier_pairwise (ev : Query → List String) (fp : String)
    (groups : List String) :
    (broadTier ev fp groups).trace.Pairwise (hitStep ev) := by
  induction groups with
  | nil => simp [broadTier]
  | cons g rest ih =>
    by_cases hev : (ev ⟨g, fp, none⟩).length > 0
    · simp only [broadTier]
      rw [if_pos hev]
      simp
    · have hnil : ev ⟨g, fp, none⟩ = [] := List.length_eq_zero.mp (by omega)
      simp only [broadTier]
      rw [if_neg hev]
      dsimp only
      refine List.pairwise_cons.mpr ⟨?_, ih⟩
      intro e' _
      exact hitStep_of_no_hit ev (tierHit_false_of_nil ev _ hnil)

theorem sfTier_tier (ev : Query → List String) (groups : List String)
    (pats : List String) :
    ∀ tot, ∀ e ∈ (sfTier ev groups pats tot).trace, e.1 = Tier.sfExec := by
  induction pats with
  | nil => intro tot e he; simp [sfTier] at he
  | cons p rest ih =>
    intro tot e he
    by_cases hpos : 0 < tot + (groupLoop ev .sfExec p none p none groups).events
    · rw [sfTier, if_pos hpos] at he
      rcases mem_groupLoop ev _ p none p none groups e he with ⟨g, hg, rfl⟩
      rfl
    · rw [sfTier, if_neg hpos] at he
      dsimp only at he
      rcases List.mem_append.mp he with he | he
      · rcases mem_groupLoop ev _ p none p none groups e he with ⟨g, hg, rfl⟩
        rfl
      · exact ih _ e he

theorem sfTier_pairwise (ev : Query → List String) (groups : List String)
    (pats : List String) :
    ∀ tot, (sfTier ev groups pats tot).trace.Pairwise (hitStep ev) := by
  induction pats with
  | nil => intro tot; simp [sfTier]
  | cons p rest ih =>
    intro tot
    by_cases hpos : 0 < tot + (groupLoop ev .sfExec p none p none groups).events
    · rw [sfTier, if_pos hpos]
      exact hitStep_of_sameCand (groupLoop_pairwise ev _ p none p none groups)
    · have hz : (groupLoop ev .sfExec p none p none groups).events = 0 := by omega
      rw [sfTier, if_neg hpos]
      dsimp only
      refine List.pairwise_append.mpr
        ⟨hitStep_of_sameCand (groupLoop_pairwise ev _ p none p none groups),
         ih _, ?_⟩
      intro a ha b _
      exact hitStep_of_no_hit ev (tierHit_false_of_nil ev a
        (groupLoop_events_zero ev _ p none p none groups hz a ha))

theorem sfTier_trace_ne_nil (ev : Query → List String) (groups : List String)
    (p : String) (rest : List String) (tot : Nat) (hg : groups ≠ []) :
    (sfTier ev groups (p :: rest) tot).trace ≠ [] := by
  have hmap : groups.map (fun g => (Tier.sfExec, (⟨g, p, none⟩ : Query))) ≠ [] := by
    simpa using hg
  by_cases hpos : 0 < tot + (groupLoop ev .sfExec p none p none groups).events
  · rw [sfTier, if_pos hpos]
    exact hmap
  · rw [sfTier, if_neg hpos]
    dsimp only
    intro hcontra
    exact hmap (List.append_eq_nil.mp hcontra).1

theorem t2Run_tier (ev : Query → List String) (fp : String)
    (m : List (String × String)) (groups fIds oIds : List String) :
    ∀ e ∈ (t2Run ev fp m groups fIds oIds).trace, e.1 = Tier.otherReq := by
  by_cases hc : (t1Run ev fp m groups fIds).events = 0 ∧ oIds ≠ []
  · rw [t2Run, if_pos hc]
    exact tierCandidates_tier ev _ fp m groups (oIds.take 3)
  · rw [t2Run, if_neg hc]
    intro e he
    simp at he

theorem t2Run_events_zero (ev : Query → List String) (fp : String)
    (m : List (String × String)) (groups fIds oIds : List String)
    (h : (t2Run ev fp m groups fIds oIds).events = 0) :
    ∀ e ∈ (t2Run ev fp m groups fIds oIds).trace, ev e.2 = [] := by
  by_cases hc : (t1Run ev fp m groups fIds).events = 0 ∧ oIds ≠ []
  · rw [t2Run, if_pos hc] at h ⊢
    exact tierCandidates_events_zero ev _ fp m groups (oIds.take 3) h
  · rw [t2Run, if_neg hc]
    intro e he
    simp at he

theorem t2Run_pairwise (ev : Query → List String) (fp : String)
    (m : List (String × String)) (groups fIds oIds : List String) :
    (t2Run ev fp m groups fIds oIds).trace.Pairwise (hitStep ev) := by
  by_cases hc : (t1Run ev fp m groups fIds).events = 0 ∧ oIds ≠ []
  · rw [t2Run, if_pos hc]
    exact tierCandidates_pairwise ev _ fp m groups (oIds.take 3)
  · rw [t2Run, if_neg hc]
    simp

theorem t4Run_tier (ev : Query → List String) (docId fp : String)
    (groups : List String) :
    ∀ e ∈ (t4Run ev docId fp groups).trace, e.1 = Tier.broad := by
  by_cases hc : (t3Run ev docId groups).events = 0
  · rw [t4Run, if_pos hc]
    exact broadTier_tier ev fp (groups.take 2)
  · rw [t4Run, if_neg hc]
    intro e he
    simp at he

theorem t4Run_events_zero (ev : Query → List String) (docId fp : String)
    (groups : List String) (h : (t4Run ev docId fp groups).events = 0) :
    ∀ e ∈ (t4Run ev docId fp groups).trace, ev e.2 = [] := by
  by_cases hc : (t3Run ev docId groups).events = 0
  · rw [t4Run, if_pos hc] at h ⊢
    exact broadTier_events_zero ev fp (groups.take 2) h
  · rw [t4Run, if_neg hc]
    intro e he
    simp at he

theorem t4Run_pairwise (ev : Query → List String) (docId fp : String)
    (groups : List String) :
    (t4Run ev docId fp groups).trace.Pairwise (hitStep ev) := by
  by_cases hc : (t3Run ev docId groups).events = 0
  · rw [t4Run, if_pos hc]
    exact broadTier_pairwise ev fp (groups.take 2)
  · rw [t4Run, if_neg hc]
    simp

/-- Master lemma: in every run, a query that yielded is only ever followed by
queries for the same candidate, or by Step Functions stage queries after a
document-identifier or broad-fallback hit. -/
theorem runCascade_pairwise (ev : Query → List String) (docId fp : String)
    (groups : List String) (m : List (String × String))
    (fIds oIds sfPs : List String) :
    (runCascade ev docId fp groups m fIds oIds sfPs).trace.Pairwise
      (hitStep ev) := by
  by_cases hblk : tot2Of ev fp m groups fIds oIds = 0 ∧ sfPs ≠ []
  · have htot := hblk.1
    unfold tot2Of at htot
    have h1z : (t1Run ev fp m groups fIds).events = 0 := by omega
    have h2z : (t2Run ev fp m groups fIds oIds).events = 0 := by omega
    have hno1 : ∀ a ∈ (t1Run ev fp m groups fIds).trace,
        tierHit ev a = false := by
      intro a ha
      exact tierHit_false_of_nil ev a
        (tierCandidates_events_zero ev _ fp m groups fIds h1z a ha)
    have hno2 : ∀ a ∈ (t2Run ev fp m groups fIds oIds).trace,
        tierHit ev a = false := by
      intro a ha
      exact tierHit_false_of_nil ev a
        (t2Run_events_zero ev fp m groups fIds oIds h2z a ha)
    rw [runCascade, if_pos hblk]
    dsimp only
    refine List.pairwise_append.mpr
      ⟨tierCandidates_pairwise ev _ fp m groups fIds, ?_, ?_⟩
    · refine List.pairwise_append.mpr
        ⟨t2Run_pairwise ev fp m groups fIds oIds, ?_, ?_⟩
      · refine List.pairwise_append.mpr
          ⟨docTier_pairwise ev (docIdentOf docId) (groups.take 3), ?_, ?_⟩
        · refine List.pairwise_append.mpr
            ⟨t4Run_pairwise ev docId fp groups,
             sfTier_pairwise ev groups sfPs _, ?_⟩
          intro a ha b hb
          intro _
          right
          exact ⟨Or.inr (t4Run_tier ev docId fp groups a ha),
            sfTier_tier ev groups sfPs _ b hb⟩
        · intro a ha b hb
          by_cases h3z : (t3Run ev docId groups).events = 0
          · exact hitStep_of_no_hit ev
              (docTier_no_hit ev (docIdentOf docId) (groups.take 3) h3z a ha)
          · intro _
            right
            refine ⟨Or.inl (docTier_tier ev (docIdentOf docId)
              (groups.take 3) a ha), ?_⟩
            rcases List.mem_append.mp hb with hb | hb
            · exfalso
              rw [t4Run, if_neg h3z] at hb
              simp at hb
            · exact sfTier_tier ev groups sfPs _ b hb
      · intro a ha b _
        exact hitStep_of_no_hit ev (hno2 a ha)
    · intro a ha b _
      exact hitStep_of_no_hit ev (hno1 a ha)
  · rw [runCascade, if_neg hblk]
    dsimp only
    refine List.pairwise_append.mpr
      ⟨tierCandidates_pairwise ev _ fp m groups fIds,
       t2Run_pairwise ev fp m groups fIds oIds, ?_⟩
    intro a ha b hb
    by_cases hc : (t1Run ev fp m groups fIds).events = 0 ∧ oIds ≠ []
    · apply hitStep_of_no_hit
      apply tierHit_false_of_nil
      exact tierCandidates_events_zero ev _ fp m groups fIds hc.1 a ha
    · rw [t2Run, if_neg hc] at hb
      simp at hb

/-- Master lemma: the code-order stage priorities along any run's trace are
ascending. -/
theorem runCascade_sorted (ev : Query → List String) (docId fp : String)
    (groups : List String) (m : List (String × String))
    (fIds oIds sfPs : List String) :
    ((runCascade ev docId fp groups m fIds oIds sfPs).trace.map
      (fun e => codeTierPriority e.1)).Pairwise (fun a b => a ≤ b) := by
  have b1 : ∀ x ∈ (t1Run ev fp m groups fIds).trace.map
      (fun e => codeTierPriority e.1), x = 0 := by
    intro x hx
    rcases List.mem_map.mp hx with ⟨e, he, rfl⟩
    rw [tierCandidates_tier ev _ fp m groups fIds e he]
    rfl
  have b2 : ∀ x ∈ (t2Run ev fp m groups fIds oIds).trace.map
      (fun e => codeTierPriority e.1), x = 1 := by
    intro x hx
    rcases List.mem_map.mp hx with ⟨e, he, rfl⟩
    rw [t2Run_tier ev fp m groups fIds oIds e he]
    rfl
  have b3 : ∀ x ∈ (t3Run ev docId groups).trace.map
      (fun e => codeTierPriority e.1), x = 2 := by
    intro x hx
    rcases List.mem_map.mp hx with ⟨e, he, rfl⟩
    rw [docTier_tier ev (docIdentOf docId) (groups.take 3) e he]
    rfl
  have b4 : ∀ x ∈ (t4Run ev docId fp groups).trace.map
      (fun e => codeTierPriority e.1), x = 3 := by
    intro x hx
    rcases List.mem_map.mp hx with ⟨e, he, rfl⟩
    rw [t4Run_tier ev docId fp groups e he]
    rfl
  have b5 : ∀ x ∈ (t5Run ev docId fp groups sfPs).trace.map
      (fun e => codeTierPriority e.1), x = 4 := by
    intro x hx
    rcases List.mem_map.mp hx with ⟨e, he, rfl⟩
    rw [sfTier_tier ev groups sfPs _ e he]
    rfl
  by_cases hblk : tot2Of ev fp m groups fIds oIds = 0 ∧ sfPs ≠ []
  · rw [runCascade, if_pos hblk]
    dsimp only
    simp only [List.map_append]
    have s45 := pairwise_le_append_blocks 3
      (fun x hx => le_of_eq (b4 x hx)) (fun x hx => by rw [b5 x hx]; omega)
      (pairwise_le_of_const 3 b4) (pairwise_le_of_const 4 b5)
    have s345 := pairwise_le_append_blocks 2
      (fun x hx => le_of_eq (b3 x hx))
      (fun x hx => by
        rcases List.mem_append.mp hx with h | h
        · rw [b4 x h]; omega
        · rw [b5 x h]; omega)
      (pairwise_le_of_const 2 b3) s45
    have s2345 := pairwise_le_append_blocks 1
      (fun x hx => le_of_eq (b2 x hx))
      (fun x hx => by
        rcases List.mem_append.mp hx with h | h
        · rw [b3 x h]; omega
        · rcases List.mem_append.mp h with h | h
          · rw [b4 x h]; omega
          · rw [b5 x h]; omega)
      (pairwise_le_of_const 1 b2) s345
    exact pairwise_le_append_blocks 0
      (fun x hx => le_of_eq (b1 x hx)) (fun x _ => Nat.zero_le x)
      (pairwise_le_of_const 0 b1) s2345
  · rw [runCascade, if_neg hblk]
    dsimp only
    simp only [List.map_append]
    exact pairwise_le_append_blocks 0
      (fun x hx => le_of_eq (b1 x hx)) (fun x _ => Nat.zero_le x)
      (pairwise_le_of_const 0 b1) (pairwise_le_of_const 1 b2)

/-- C1 amended: stages run in the fixed code order (failed request ids, other
request ids, document identifier, broad fallback, Step Functions patterns);
once a stage query has yielded, every later query stays in the same stage
except that the Step Functions stage still runs after a document-identifier
or broad-fallback hit; and whenever the two request-id stages find nothing, a
Step Functions pattern exists and there is at least one group, the Step
Functions stage is indeed queried. -/
theorem cascade_tier_order_halt (ev : Query → List String) (docId fp : String)
    (groups : List String) (m : List (String × String))
    (fIds oIds sfPs : List String) :
    ((runCascade ev docId fp groups m fIds oIds sfPs).trace.map
      (fun e => codeTierPriority e.1)).Pairwise (fun a b => a ≤ b)
    ∧ (runCascade ev docId fp groups m fIds oIds sfPs).trace.Pairwise
        (fun e e' => tierHit ev e = true →
          e.1 = e'.1 ∨
            ((e.1 = Tier.docSpecific ∨ e.1 = Tier.broad) ∧ e'.1 = Tier.sfExec))
    ∧ ((tierCandidates ev Tier.failedReq fp m groups fIds).events = 0 →
       (tierCandidates ev Tier.otherReq fp m groups (oIds.take 3)).events = 0 →
       sfPs ≠ [] → groups ≠ [] →
       ∃ e ∈ (runCascade ev docId fp groups m fIds oIds sfPs).trace,
         e.1 = Tier.sfExec) := by
  refine ⟨runCascade_sorted ev docId fp groups m fIds oIds sfPs, ?_, ?_⟩
  · exact (runCascade_pairwise ev docId fp groups m fIds oIds sfPs).imp
      (fun hs hh => (hs hh).elim (fun hc => Or.inl hc.1) Or.inr)
  · intro h1 h2 h3 h4
    have h2' : (t2Run ev fp m groups fIds oIds).events = 0 := by
      rw [t2Run]
      split
      · exact h2
      · rfl
    have hblk : tot2Of ev fp m groups fIds oIds = 0 ∧ sfPs ≠ [] := by
      refine ⟨?_, h3⟩
      have h1' : (t1Run ev fp m groups fIds).events = 0 := h1
      unfold tot2Of
      omega
    rw [runCascade, if_pos hblk]
    dsimp only
    rcases sfPs with _ | ⟨p, rest⟩
    · exact absurd rfl h3
    · obtain ⟨e, he⟩ := List.exists_mem_of_ne_nil _
        (sfTier_trace_ne_nil ev groups p rest
          ((t3Run ev docId groups).events + (t4Run ev docId fp groups).events)
          h4)
      refine ⟨e, ?_, sfTier_tier ev groups (p :: rest) _ e he⟩
      apply List.mem_append.mpr; right
      apply List.mem_append.mpr; right
      apply List.mem_append.mpr; right
      apply List.mem_append.mpr; right
      exact he

/-- Witness for `cascade_tier_order_halt`: an oracle returning nothing,
one group, no request ids and one Step Functions pattern; the discharged
hypotheses and the resulting Step Functions query. -/
theorem cascade_tier_order_halt_witness :
    (tierCandidates (fun _ => ([] : List String)) Tier.failedReq "ERROR" []
      ["g1"] []).events = 0
    ∧ (tierCandidates (fun _ => ([] : List String)) Tier.otherReq "ERROR" []
      ["g1"] (([] : List String).take 3)).events = 0
    ∧ (["e1"] : List String) ≠ []
    ∧ (["g1"] : List String) ≠ []
    ∧ ∃ e ∈ (runCascade (fun _ => ([] : List String)) "d.pdf" "ERROR" ["g1"]
        [] [] [] ["e1"]).trace, e.1 = Tier.sfExec :=
  ⟨rfl, rfl, by simp, by simp,
   (cascade_tier_order_halt (fun _ => ([] : List String)) "d.pdf" "ERROR"
      ["g1"] [] [] [] ["e1"]).2.2 rfl rfl (by simp) (by simp)⟩

/-- C1 counterexample: a run in which the document-identifier stage is queried
before (and yields while) the Step Functions stage is still queried after it,
so the trace priorities in the specification's claimed tier order
(primary 1, other 2, execution-reference 3, case-identifier 4, broad 5) are
not ascending. -/
theorem cascade_claimed_order_cex :
    ¬ ((runCascade docThenSfOracle "doc.pdf" "ERROR" ["g1"] [] [] []
        ["exec1"]).trace.map
          (fun e => claimedTierPriority e.1)).Pairwise (fun a b => a ≤ b) := by
  intro h
  rw [show ((runCascade docThenSfOracle "doc.pdf" "ERROR" ["g1"] [] [] []
      ["exec1"]).trace.map (fun e => claimedTierPriority e.1))
    = [4, 3] by decide] at h
  have h43 := (List.pairwise_cons.mp h).1 3 (by simp)
  omega

/-- C2 amended: after any yielding (candidate, container) query, every later
query is for the same candidate (remaining containers), except that the Step
Functions stage still runs after a document-identifier or broad-fallback hit;
in the document-identifier stage a query counts as yielding only via its
error-keyword re-filter. -/
theorem cascade_candidate_halt (ev : Query → List String) (docId fp : String)
    (groups : List String) (m : List (String × String))
    (fIds oIds sfPs : List String) :
    (runCascade ev docId fp groups m fIds oIds sfPs).trace.Pairwise
      (fun e e' => tierHit ev e = true →
        sameCand e e' ∨
          ((e.1 = Tier.docSpecific ∨ e.1 = Tier.broad) ∧
            e'.1 = Tier.sfExec)) :=
  runCascade_pairwise ev docId fp groups m fIds oIds sfPs

/-- Witness for `cascade_candidate_halt` at a concrete oracle and inputs. -/
theorem cascade_candidate_halt_witness :
    (runCascade (fun _ => (["E"] : List String)) "w.pdf" "ERROR" ["g1"] []
      ["r9"] [] []).trace.Pairwise
      (fun e e' => tierHit (fun _ => (["E"] : List String)) e = true →
        sameCand e e' ∨
          ((e.1 = Tier.docSpecific ∨ e.1 = Tier.broad) ∧
            e'.1 = Tier.sfExec)) :=
  cascade_candidate_halt (fun _ => (["E"] : List String)) "w.pdf" "ERROR"
    ["g1"] [] ["r9"] [] []

/-- C2 counterexample: with two groups and one failed request id whose first
group already yields an event, the controller still issues the query for the
second group — so it is not true that no further query follows a yielding
one. -/
theorem cascade_instant_halt_cex :
    ¬ ((runCascade firstGroupHitOracle "a.pdf" "ERROR" ["g1", "g2"]
        [("fnA", "r1")] ["r1"] [] []).trace.Pairwise
          (fun e _ => firstGroupHitOracle e.2 = [])) := by
  intro h
  rw [show (runCascade firstGroupHitOracle "a.pdf" "ERROR" ["g1", "g2"]
      [("fnA", "r1")] ["r1"] [] []).trace
    = [(Tier.failedReq, ⟨"g1", "ERROR", some "r1"⟩),
       (Tier.failedReq, ⟨"g2", "ERROR", some "r1"⟩)] by decide] at h
  have h12 := (List.pairwise_cons.mp h).1
    (Tier.failedReq, ⟨"g2", "ERROR", some "r1"⟩) (by simp)
  have : firstGroupHitOracle ⟨"g1", "ERROR", some "r1"⟩ = ["ERROR first"] := rfl
  rw [this] at h12
  exact List.noConfusion h12

end ErrorAnalyzer
